import Mathlib

/-!
Shallow embedding of the request-governance layer of the Searcb backend:
the sliding-window rate limiter (`backend/app/middleware/rate_limiting.py`)
and the cache service (`backend/app/core/cache.py`).

Modelling conventions: Python integers and timestamps are `Int`/`Nat`
(timestamps come from `int(time.time())`; sub-second fractions carry no
weight in any verified property, so one integer clock serves both the
float-valued check in `_is_request_allowed_memory` and the int-valued
record); fallible Redis commands return `Except Unit`; a `try/except`
block becomes an explicit `match` on the `Except` result.  Within one
`dispatch` the successive `time.time()` calls are modelled by a single
`now`, i.e. no time passes while one request is being governed.
-/

namespace Searcb

/-- `settings.RATE_LIMIT_REQUESTS` and `settings.RATE_LIMIT_WINDOW`, read
once in `RateLimitingMiddleware.__init__` (`requests_per_minute`,
`window_size`). -/
structure RateLimitConfig where
  requestsPerMinute : Nat
  windowSize : Nat
  deriving DecidableEq

/-- The in-process fallback store `self.memory_store = defaultdict(list)`:
an association list from client id to the list of recorded timestamps.
A missing client id reads as the empty list (`defaultdict(list)`). -/
abbrev MemStore := List (String × List Int)

def MemStore.find : MemStore → String → List Int
  | [], _ => []
  | (k, v) :: rest, cid => if k = cid then v else MemStore.find rest cid

def MemStore.set : MemStore → String → List Int → MemStore
  | [], cid, l => [(cid, l)]
  | (k, v) :: rest, cid, l =>
      if k = cid then (cid, l) :: rest else (k, v) :: MemStore.set rest cid l

/-- A Redis sorted set: members (strings) with integer scores. -/
abbrev ZSet := List (String × Int)

/-- The sorted-set keyspace used for the window ledgers. -/
abbrev ZStore := List (String × ZSet)

def ZStore.find : ZStore → String → ZSet
  | [], _ => []
  | (k, v) :: rest, key => if k = key then v else ZStore.find rest key

def ZStore.set : ZStore → String → ZSet → ZStore
  | [], key, v => [(key, v)]
  | (k, v') :: rest, key, v =>
      if k = key then (key, v) :: rest else (k, v') :: ZStore.set rest key v

/-- `ZADD key {member: score}`: update the member's score when present,
otherwise append the member. -/
def ZSet.zadd : ZSet → String → Int → ZSet
  | [], m, s => [(m, s)]
  | (m', s') :: rest, m, s =>
      if m' = m then (m, s) :: rest else (m', s') :: ZSet.zadd rest m s

/-- The Redis connection the middleware reaches through `cache.client`.
`healthy` is what `cache.health_check()` (a PING) reports; `failing` models
a connection on which commands raise (the surrounding `try/except` catches
that).  Key TTLs set by `EXPIRE` are not recorded: no verified claim
depends on ledger expiry. -/
structure RedisConn where
  healthy : Bool
  failing : Bool
  zsets : ZStore
  deriving DecidableEq

/-- `ZREMRANGEBYSCORE key lo hi`: drop the members whose score lies in the
inclusive range `[lo, hi]`. -/
def RedisConn.zremrangebyscore (r : RedisConn) (key : String) (lo hi : Int) :
    Except Unit RedisConn :=
  if r.failing then .error () else
    let pruned := (ZStore.find r.zsets key).filter (fun p => !(lo ≤ p.2 && p.2 ≤ hi))
    .ok { r with zsets := ZStore.set r.zsets key pruned }

/-- `ZCARD key`: the number of members. -/
def RedisConn.zcard (r : RedisConn) (key : String) : Except Unit Nat :=
  if r.failing then .error () else .ok ((ZStore.find r.zsets key).length)

def RedisConn.zadd (r : RedisConn) (key member : String) (score : Int) :
    Except Unit RedisConn :=
  if r.failing then .error () else
    let updated := ZSet.zadd (ZStore.find r.zsets key) member score
    .ok { r with zsets := ZStore.set r.zsets key updated }

/-- `EXPIRE key ttl`: the ledger's self-cleaning TTL; the TTL itself is not
tracked (see `RedisConn`), but the command can still raise. -/
def RedisConn.expire (r : RedisConn) (_key : String) (_ttl : Nat) :
    Except Unit RedisConn :=
  if r.failing then .error () else .ok r

/-- `f"rate_limit:{client_id}"`. -/
def rateLimitKey (cid : String) : String := "rate_limit:" ++ cid

/-- `_is_request_allowed_memory`: reassign the client's ledger to the
entries with `timestamp > window_start`, then compare the count with the
limit.  Returns the decision together with the updated store. -/
def isRequestAllowedMemory (cfg : RateLimitConfig) (store : MemStore)
    (cid : String) (now : Int) : Bool × MemStore :=
  let windowStart := now - (cfg.windowSize : Int)
  let pruned := (MemStore.find store cid).filter (fun t => windowStart < t)
  (decide (pruned.length < cfg.requestsPerMinute), MemStore.set store cid pruned)

/-- The `try` body of `_is_request_allowed`: health probe, then either the
Redis prune-and-count or the memory fallback. -/
def isRequestAllowedBody (cfg : RateLimitConfig) (redis : RedisConn)
    (mem : MemStore) (cid : String) (now : Int) :
    Except Unit (Bool × RedisConn × MemStore) :=
  let windowStart := now - (cfg.windowSize : Int)
  if redis.healthy then
    match redis.zremrangebyscore (rateLimitKey cid) 0 windowStart with
    | .error e => .error e
    | .ok redis1 =>
        match redis1.zcard (rateLimitKey cid) with
        | .error e => .error e
        | .ok currentRequests =>
            .ok (decide (currentRequests < cfg.requestsPerMinute), redis1, mem)
  else
    let r := isRequestAllowedMemory cfg mem cid now
    .ok (r.1, redis, r.2)

/-- `_is_request_allowed`: on any exception the request is allowed
("Allow request if rate limiting fails").  Totality of this function is the
model's rendering of "never raises". -/
def isRequestAllowed (cfg : RateLimitConfig) (redis : RedisConn)
    (mem : MemStore) (cid : String) (now : Int) : Bool × RedisConn × MemStore :=
  match isRequestAllowedBody cfg redis mem cid now with
  | .ok res => res
  | .error _ => (true, redis, mem)

/-- The `try` body of `_record_request`: `ZADD` the current second as both
member and score, refresh the key's expiry, or append to the memory store. -/
def recordRequestBody (cfg : RateLimitConfig) (redis : RedisConn)
    (mem : MemStore) (cid : String) (now : Int) :
    Except Unit (RedisConn × MemStore) :=
  if redis.healthy then
    match redis.zadd (rateLimitKey cid) (toString now) now with
    | .error e => .error e
    | .ok redis1 =>
        match redis1.expire (rateLimitKey cid) cfg.windowSize with
        | .error e => .error e
        | .ok redis2 => .ok (redis2, mem)
  else
    .ok (redis, MemStore.set mem cid (MemStore.find mem cid ++ [now]))

/-- `_record_request`: exceptions are logged and swallowed. -/
def recordRequest (cfg : RateLimitConfig) (redis : RedisConn) (mem : MemStore)
    (cid : String) (now : Int) : RedisConn × MemStore :=
  match recordRequestBody cfg redis mem cid now with
  | .ok res => res
  | .error _ => (redis, mem)

/-- The `try` body of `_get_remaining_requests`: `max(0, N - count)` over
the raw (unpruned) ledger size on either backend. -/
def getRemainingRequestsBody (cfg : RateLimitConfig) (redis : RedisConn)
    (mem : MemStore) (cid : String) : Except Unit Int :=
  if redis.healthy then
    match redis.zcard (rateLimitKey cid) with
    | .error e => .error e
    | .ok currentRequests =>
        .ok (max 0 ((cfg.requestsPerMinute : Int) - currentRequests))
  else
    .ok (max 0 ((cfg.requestsPerMinute : Int) - (MemStore.find mem cid).length))

/-- `_get_remaining_requests`: on an exception the full limit is reported. -/
def getRemainingRequests (cfg : RateLimitConfig) (redis : RedisConn)
    (mem : MemStore) (cid : String) : Int :=
  match getRemainingRequestsBody cfg redis mem cid with
  | .ok n => n
  | .error _ => (cfg.requestsPerMinute : Int)

/-- An inbound request as the middleware sees it.  `_get_client_id`
(credential decode with IP fallback) is outside every claim, so the derived
identity travels with the request. -/
structure Request where
  path : String
  clientId : String
  deriving DecidableEq

/-- The outcome of `RateLimitingMiddleware.dispatch`: the downstream
response passed through untouched (exempt paths), the downstream response
with the rate-limit headers added, or a raised `HTTPException`. -/
inductive DispatchResult (β : Type) where
  | passthrough (body : β)
  | response (body : β) (headers : List (String × String))
  | httpError (status : Nat) (headers : List (String × String))

/-- The middleware's mutable surroundings: the Redis connection and the
in-process fallback store. -/
structure MWState where
  redis : RedisConn
  mem : MemStore

/-- The paths `dispatch` skips. -/
def exemptPaths : List String := ["/health", "/", "/favicon.ico"]

/-- `RateLimitingMiddleware.dispatch`: skip exempt paths; check the limit;
raise 429 with `Retry-After` on denial; otherwise record, run the handler
and attach the `X-RateLimit-*` headers. -/
def dispatch {β : Type} (cfg : RateLimitConfig) (st : MWState)
    (handler : Request → β) (req : Request) (now : Int) :
    DispatchResult β × MWState :=
  if req.path ∈ exemptPaths then (.passthrough (handler req), st)
  else
    let r := isRequestAllowed cfg st.redis st.mem req.clientId now
    if r.1 then
      let r2 := recordRequest cfg r.2.1 r.2.2 req.clientId now
      let remaining := getRemainingRequests cfg r2.1 r2.2 req.clientId
      (.response (handler req)
        [("X-RateLimit-Limit", toString cfg.requestsPerMinute),
         ("X-RateLimit-Remaining", toString remaining),
         ("X-RateLimit-Reset", toString (now + (cfg.windowSize : Int)))],
       ⟨r2.1, r2.2⟩)
    else
      (.httpError 429 [("Retry-After", toString cfg.windowSize)],
       ⟨r.2.1, r.2.2⟩)

/-- What `SimpleLimiter.limit(rate)` yields for an endpoint function: the
function itself, with the declared rate stored on it as the `_rate_limit`
attribute. -/
structure AnnotatedEndpoint (α β : Type) where
  fn : α → β
  declaredRate : Option String

/-- `SimpleLimiter.limit`: "For now, just return the function as-is". -/
def SimpleLimiter.limit {α β : Type} (rate : String) (func : α → β) :
    AnnotatedEndpoint α β :=
  { fn := func, declaredRate := some rate }

/-- The in-window entries of a timestamp list: those with `now - W < t`
(the spec's WindowLedger content). -/
def inWindow (W : Nat) (now : Int) (ts : List Int) : List Int :=
  ts.filter (fun t => now - (W : Int) < t)

/-- The in-window members of a sorted-set ledger. -/
def inWindowScores (W : Nat) (now : Int) (zs : ZSet) : ZSet :=
  zs.filter (fun p => now - (W : Int) < p.2)

/-- Follows the spec's words (for comparison with the code):
`remaining(id) = max(0, N - count)` where the count is taken after pruning
the ledger to `(now-W, now]`. -/
def specRemainingPruned (cfg : RateLimitConfig) (mem : MemStore)
    (cid : String) (now : Int) : Int :=
  max 0 ((cfg.requestsPerMinute : Int)
    - (inWindow cfg.windowSize now (MemStore.find mem cid)).length)

theorem mem_find_set_self (s : MemStore) (cid : String) (l : List Int) :
    MemStore.find (MemStore.set s cid l) cid = l := by
  induction s with
  | nil => simp [MemStore.set, MemStore.find]
  | cons e rest ih =>
      obtain ⟨k, v⟩ := e
      by_cases h : k = cid <;> simp [MemStore.set, MemStore.find, h, ih]

theorem mem_find_set_ne (s : MemStore) (cid c : String) (l : List Int)
    (h : c ≠ cid) : MemStore.find (MemStore.set s cid l) c = MemStore.find s c := by
  induction s with
  | nil => simp [MemStore.set, MemStore.find, h, Ne.symm h]
  | cons e rest ih =>
      obtain ⟨k, v⟩ := e
      by_cases hk : k = cid
      · subst hk
        simp [MemStore.set, MemStore.find, h, Ne.symm h]
      · by_cases hc : k = c
        · subst hc
          simp [MemStore.set, MemStore.find, h, hk]
        · simp [MemStore.set, MemStore.find, hk, hc, ih]

theorem zstore_find_set_self (s : ZStore) (key : String) (v : ZSet) :
    ZStore.find (ZStore.set s key v) key = v := by
  induction s with
  | nil => simp [ZStore.set, ZStore.find]
  | cons e rest ih =>
      obtain ⟨k, w⟩ := e
      by_cases h : k = key <;> simp [ZStore.set, ZStore.find, h, ih]

theorem zstore_find_set_ne (s : ZStore) (key k : String) (v : ZSet)
    (h : k ≠ key) : ZStore.find (ZStore.set s key v) k = ZStore.find s k := by
  induction s with
  | nil => simp [ZStore.set, ZStore.find, h, Ne.symm h]
  | cons e rest ih =>
      obtain ⟨k', w⟩ := e
      by_cases hk : k' = key
      · subst hk
        simp [ZStore.set, ZStore.find, h, Ne.symm h]
      · by_cases hc : k' = k
        · subst hc
          simp [ZStore.set, ZStore.find, h, hk]
        · simp [ZStore.set, ZStore.find, hk, hc, ih]

theorem filter_filter_of_imp {α : Type} (p q : α → Bool) (l : List α)
    (h : ∀ a, q a = true → p a = true) :
    (l.filter p).filter q = l.filter q := by
  induction l with
  | nil => rfl
  | cons x xs ih =>
      cases hp : p x with
      | true => cases hq : q x <;> simp [List.filter, hp, hq, ih]
      | false =>
          have hq : q x = false := by
            cases hqx : q x
            · rfl
            · simp [h x hqx] at hp
          simp [List.filter, hp, hq, ih]

theorem filter_idem {α : Type} (p : α → Bool) (l : List α) :
    (l.filter p).filter p = l.filter p :=
  filter_filter_of_imp p p l (fun _ ha => ha)

/-- C1: the admission decision first prunes the client's ledger to the
trailing window `(now - W, now]` and then admits exactly when the pruned
count is strictly below `N`; a ledger holding exactly `N` in-window entries
has the next request rejected.  Stated for the Redis path (healthy,
non-failing connection, scores nonnegative as `int(time.time())` produces
them) and for the memory fallback path. -/
theorem admission_prune_then_count (cfg : RateLimitConfig) (redis : RedisConn)
    (mem : MemStore) (cid : String) (now : Int)
    (hh : redis.healthy = true) (hf : redis.failing = false)
    (hnn : ∀ p ∈ ZStore.find redis.zsets (rateLimitKey cid), 0 ≤ p.2) :
    ((isRequestAllowed cfg redis mem cid now).1
        = decide ((inWindowScores cfg.windowSize now
            (ZStore.find redis.zsets (rateLimitKey cid))).length
          < cfg.requestsPerMinute))
    ∧ ((inWindowScores cfg.windowSize now
          (ZStore.find redis.zsets (rateLimitKey cid))).length
            = cfg.requestsPerMinute →
        (isRequestAllowed cfg redis mem cid now).1 = false)
    ∧ ((isRequestAllowedMemory cfg mem cid now).1
        = decide ((inWindow cfg.windowSize now (MemStore.find mem cid)).length
          < cfg.requestsPerMinute))
    ∧ ((inWindow cfg.windowSize now (MemStore.find mem cid)).length
          = cfg.requestsPerMinute →
        (isRequestAllowedMemory cfg mem cid now).1 = false) := by
  have hfiltereq : (ZStore.find redis.zsets (rateLimitKey cid)).filter
        (fun p => !(0 ≤ p.2 && p.2 ≤ now - (cfg.windowSize : Int)))
      = inWindowScores cfg.windowSize now
          (ZStore.find redis.zsets (rateLimitKey cid)) := by
    unfold inWindowScores
    refine List.filter_congr ?_
    intro p hp
    have h0 : (0 : Int) ≤ p.2 := hnn p hp
    rcases le_or_lt p.2 (now - (cfg.windowSize : Int)) with hle | hlt
    · rw [decide_eq_true h0, decide_eq_true hle, Bool.true_and, Bool.not_true,
        decide_eq_false (not_lt.mpr hle)]
    · rw [decide_eq_false (not_le.mpr hlt), Bool.and_false, Bool.not_false,
        decide_eq_true hlt]
  have hredis : (isRequestAllowed cfg redis mem cid now).1
      = decide ((inWindowScores cfg.windowSize now
          (ZStore.find redis.zsets (rateLimitKey cid))).length
        < cfg.requestsPerMinute) := by
    simp only [isRequestAllowed, isRequestAllowedBody, RedisConn.zremrangebyscore,
      RedisConn.zcard, hh, hf, if_true, if_false, Bool.false_eq_true,
      zstore_find_set_self]
    rw [hfiltereq]
  have hmem : (isRequestAllowedMemory cfg mem cid now).1
      = decide ((inWindow cfg.windowSize now (MemStore.find mem cid)).length
        < cfg.requestsPerMinute) := rfl
  refine ⟨hredis, ?_, hmem, ?_⟩
  · intro hN
    rw [hredis, hN]
    simp
  · intro hN
    rw [hmem, hN]
    simp

/-- Witness for C1 at `N = 2`, `W = 60`, `now = 60`: a ledger holding two
in-window entries rejects the next request on both paths. -/
theorem admission_prune_then_count_witness :
    (isRequestAllowed ⟨2, 60⟩
        ⟨true, false, [("rate_limit:ip:1.2.3.4", [("10", 10), ("20", 20)])]⟩
        [] "ip:1.2.3.4" 60).1 = false
    ∧ (isRequestAllowedMemory ⟨2, 60⟩ [("ip:1.2.3.4", [10, 20])]
        "ip:1.2.3.4" 60).1 = false := by
  refine ⟨?_, ?_⟩
  · exact (admission_prune_then_count ⟨2, 60⟩
      ⟨true, false, [("rate_limit:ip:1.2.3.4", [("10", 10), ("20", 20)])]⟩
      [] "ip:1.2.3.4" 60 rfl rfl (by decide)).2.1 (by decide)
  · exact (admission_prune_then_count ⟨2, 60⟩
      ⟨true, false, [("rate_limit:ip:1.2.3.4", [("10", 10), ("20", 20)])]⟩
      [("ip:1.2.3.4", [10, 20])] "ip:1.2.3.4" 60 rfl rfl
      (by decide)).2.2.2 (by decide)

/-- C2 counterexample: `_get_remaining_requests` counts the raw ledger
without pruning, so with a single stale timestamp (t = 0, now = 100,
W = 60) it reports 2 remaining of 3, while the spec's prune-before-count
remaining is 3.  This falsifies the claim that entries outside the window
are pruned before the count behind `X-RateLimit-Remaining`. -/
theorem remaining_counts_stale_entries :
    getRemainingRequests ⟨3, 60⟩ ⟨false, false, []⟩ [("ip:1.2.3.4", [0])]
        "ip:1.2.3.4"
      ≠ specRemainingPruned ⟨3, 60⟩ [("ip:1.2.3.4", [0])] "ip:1.2.3.4" 100 := by
  decide

/-- C2 amended: the pruning to `t > now - W` happens before the admission
count in `is_allowed` — immediately after the check every stored timestamp
of that client's ledger is in-window, on both paths — but the count behind
`X-RateLimit-Remaining` is taken by `_get_remaining_requests` over the raw
unpruned ledger. -/
theorem window_invariant_amended (cfg : RateLimitConfig) (redis : RedisConn)
    (mem : MemStore) (cid : String) (now : Int) :
    (∀ t ∈ MemStore.find (isRequestAllowedMemory cfg mem cid now).2 cid,
        now - (cfg.windowSize : Int) < t)
    ∧ (redis.healthy = true → redis.failing = false →
        (∀ p ∈ ZStore.find redis.zsets (rateLimitKey cid), 0 ≤ p.2) →
        ∀ p ∈ ZStore.find (isRequestAllowed cfg redis mem cid now).2.1.zsets
            (rateLimitKey cid), now - (cfg.windowSize : Int) < p.2)
    ∧ (redis.healthy = false →
        getRemainingRequests cfg redis mem cid
          = max 0 ((cfg.requestsPerMinute : Int) - (MemStore.find mem cid).length))
    ∧ (redis.healthy = true → redis.failing = false →
        getRemainingRequests cfg redis mem cid
          = max 0 ((cfg.requestsPerMinute : Int)
              - (ZStore.find redis.zsets (rateLimitKey cid)).length)) := by
  refine ⟨?_, ?_, ?_, ?_⟩
  · intro t ht
    rw [show (isRequestAllowedMemory cfg mem cid now).2
        = MemStore.set mem cid ((MemStore.find mem cid).filter
            (fun u => now - (cfg.windowSize : Int) < u)) from rfl,
      mem_find_set_self] at ht
    exact of_decide_eq_true (List.mem_filter.mp ht).2
  · intro hh hf hnn p hp
    have hzs : (isRequestAllowed cfg redis mem cid now).2.1.zsets
        = ZStore.set redis.zsets (rateLimitKey cid)
            ((ZStore.find redis.zsets (rateLimitKey cid)).filter
              (fun p => !(0 ≤ p.2 && p.2 ≤ now - (cfg.windowSize : Int)))) := by
      simp [isRequestAllowed, isRequestAllowedBody, RedisConn.zremrangebyscore,
        RedisConn.zcard, hh, hf]
    rw [hzs, zstore_find_set_self] at hp
    have h1 := List.of_mem_filter hp
    have h0 : (0 : Int) ≤ p.2 := hnn p (List.mem_of_mem_filter hp)
    by_contra hcon
    rw [decide_eq_true h0, decide_eq_true (not_lt.mp hcon), Bool.true_and,
      Bool.not_true] at h1
    exact Bool.false_ne_true h1
  · intro hh
    simp [getRemainingRequests, getRemainingRequestsBody, hh]
  · intro hh hf
    simp [getRemainingRequests, getRemainingRequestsBody, RedisConn.zcard, hh, hf]

/-- Witness for the amended C2: concrete remaining-request values on both
paths, and the in-window bound for a concrete post-check ledger entry. -/
theorem window_invariant_amended_witness :
    getRemainingRequests ⟨3, 60⟩ ⟨false, false, []⟩ [("c", [0, 95])] "c" = 1
    ∧ getRemainingRequests ⟨3, 60⟩
        ⟨true, false, [("rate_limit:c", [("95", 95)])]⟩ [] "c" = 2
    ∧ (100 : Int) - ((60 : Nat) : Int) < 95 := by
  have h1 := (window_invariant_amended ⟨3, 60⟩ ⟨false, false, []⟩
      [("c", [0, 95])] "c" 100).2.2.1 rfl
  have h2 := (window_invariant_amended ⟨3, 60⟩
      ⟨true, false, [("rate_limit:c", [("95", 95)])]⟩ [] "c" 100).2.2.2 rfl rfl
  have h3 := (window_invariant_amended ⟨3, 60⟩ ⟨false, false, []⟩
      [("c", [0, 95])] "c" 100).1 95 (by decide)
  refine ⟨?_, ?_, h3⟩
  · rw [h1]; decide
  · rw [h2]; decide

/-- C3: when the admission check denies a request on a non-exempt path,
`dispatch` raises 429 with `Retry-After = W`, `_record_request` is not
called, and every client's window ledger — the in-window timestamps, which
are all the spec's WindowLedger contains — is left unchanged (the check
itself only discards already-expired entries). -/
theorem rejected_request_handling {β : Type} (cfg : RateLimitConfig)
    (st : MWState) (handler : Request → β) (req : Request) (now : Int)
    (hpath : req.path ∉ exemptPaths)
    (hdeny : (isRequestAllowed cfg st.redis st.mem req.clientId now).1 = false) :
    (dispatch cfg st handler req now
      = (.httpError 429 [("Retry-After", toString cfg.windowSize)],
          ⟨(isRequestAllowed cfg st.redis st.mem req.clientId now).2.1,
           (isRequestAllowed cfg st.redis st.mem req.clientId now).2.2⟩))
    ∧ (∀ c, inWindow cfg.windowSize now
          (MemStore.find (isRequestAllowed cfg st.redis st.mem req.clientId now).2.2 c)
        = inWindow cfg.windowSize now (MemStore.find st.mem c))
    ∧ (∀ k, inWindowScores cfg.windowSize now
          (ZStore.find (isRequestAllowed cfg st.redis st.mem req.clientId now).2.1.zsets k)
        = inWindowScores cfg.windowSize now (ZStore.find st.redis.zsets k)) := by
  refine ⟨?_, ?_, ?_⟩
  · simp [dispatch, hpath, hdeny]
  · intro c
    cases hh : st.redis.healthy with
    | false =>
        have hm : (isRequestAllowed cfg st.redis st.mem req.clientId now).2.2
            = MemStore.set st.mem req.clientId
                ((MemStore.find st.mem req.clientId).filter
                  (fun u => now - (cfg.windowSize : Int) < u)) := by
          simp [isRequestAllowed, isRequestAllowedBody, isRequestAllowedMemory, hh]
        rw [hm]
        by_cases hc : c = req.clientId
        · subst hc
          rw [mem_find_set_self]
          exact filter_idem _ _
        · rw [mem_find_set_ne _ _ _ _ hc]
    | true =>
        cases hf : st.redis.failing with
        | true =>
            have hm : (isRequestAllowed cfg st.redis st.mem req.clientId now).2.2
                = st.mem := by
              simp [isRequestAllowed, isRequestAllowedBody,
                RedisConn.zremrangebyscore, hh, hf]
            rw [hm]
        | false =>
            have hm : (isRequestAllowed cfg st.redis st.mem req.clientId now).2.2
                = st.mem := by
              simp [isRequestAllowed, isRequestAllowedBody,
                RedisConn.zremrangebyscore, RedisConn.zcard, hh, hf]
            rw [hm]
  · intro k
    cases hh : st.redis.healthy with
    | false =>
        have hz : (isRequestAllowed cfg st.redis st.mem req.clientId now).2.1
            = st.redis := by
          simp [isRequestAllowed, isRequestAllowedBody, hh]
        rw [hz]
    | true =>
        cases hf : st.redis.failing with
        | true =>
            have hz : (isRequestAllowed cfg st.redis st.mem req.clientId now).2.1
                = st.redis := by
              simp [isRequestAllowed, isRequestAllowedBody,
                RedisConn.zremrangebyscore, hh, hf]
            rw [hz]
        | false =>
            have hz : (isRequestAllowed cfg st.redis st.mem req.clientId now).2.1.zsets
                = ZStore.set st.redis.zsets (rateLimitKey req.clientId)
                    ((ZStore.find st.redis.zsets (rateLimitKey req.clientId)).filter
                      (fun p => !(0 ≤ p.2 && p.2 ≤ now - (cfg.windowSize : Int)))) := by
              simp [isRequestAllowed, isRequestAllowedBody,
                RedisConn.zremrangebyscore, RedisConn.zcard, hh, hf]
            rw [hz]
            by_cases hk : k = rateLimitKey req.clientId
            · subst hk
              rw [zstore_find_set_self]
              exact filter_filter_of_imp _ _ _ (fun a ha => by
                have hlt : now - (cfg.windowSize : Int) < a.2 := of_decide_eq_true ha
                rw [decide_eq_false (not_le.mpr hlt), Bool.and_false, Bool.not_false])
            · rw [zstore_find_set_ne _ _ _ _ hk]

/-- Witness for C3: with `N = 1`, `W = 60` and a ledger already holding an
in-window entry, a request to a non-exempt path is answered 429 with
`Retry-After: 60`. -/
theorem rejected_request_handling_witness :
    (dispatch ⟨1, 60⟩ ⟨⟨false, false, []⟩, [("ip:9", [0, 100])]⟩
        (fun _ => ()) ⟨"/api/v1/pca", "ip:9"⟩ 100).1
      = .httpError 429 [("Retry-After", "60")] := by
  have h := rejected_request_handling (β := Unit) ⟨1, 60⟩
      ⟨⟨false, false, []⟩, [("ip:9", [0, 100])]⟩ (fun _ => ())
      ⟨"/api/v1/pca", "ip:9"⟩ 100 (by decide) (by decide)
  rw [h.1]
  rfl

/-- C4: when the health probe reports the backend down, `_is_request_allowed`
and `_record_request` serve the same interface from the in-process store
with the same `N` and `W` (and, being total functions of the model, never
raise); when the probe succeeds but the connection then raises, the request
is admitted ("Allow request if rate limiting fails"). -/
theorem fail_open_fallback (cfg : RateLimitConfig) (redis : RedisConn)
    (mem : MemStore) (cid : String) (now : Int) :
    (redis.healthy = false →
        isRequestAllowed cfg redis mem cid now
          = ((isRequestAllowedMemory cfg mem cid now).1, redis,
              (isRequestAllowedMemory cfg mem cid now).2))
    ∧ (redis.healthy = false →
        recordRequest cfg redis mem cid now
          = (redis, MemStore.set mem cid (MemStore.find mem cid ++ [now])))
    ∧ (redis.healthy = true → redis.failing = true →
        (isRequestAllowed cfg redis mem cid now).1 = true) := by
  refine ⟨?_, ?_, ?_⟩
  · intro hh
    simp [isRequestAllowed, isRequestAllowedBody, hh]
  · intro hh
    simp [recordRequest, recordRequestBody, hh]
  · intro hh hf
    simp [isRequestAllowed, isRequestAllowedBody, RedisConn.zremrangebyscore,
      hh, hf]

/-- Witness for C4: a concrete unhealthy connection falls back to the
memory path, and a concrete failing connection admits the request. -/
theorem fail_open_fallback_witness :
    (isRequestAllowed ⟨2, 60⟩ ⟨false, false, []⟩ [] "c" 5
        = ((isRequestAllowedMemory ⟨2, 60⟩ [] "c" 5).1, ⟨false, false, []⟩,
            (isRequestAllowedMemory ⟨2, 60⟩ [] "c" 5).2))
    ∧ (recordRequest ⟨2, 60⟩ ⟨false, false, []⟩ [] "c" 5
        = (⟨false, false, []⟩, MemStore.set [] "c" (MemStore.find [] "c" ++ [5])))
    ∧ (isRequestAllowed ⟨2, 60⟩ ⟨true, true, []⟩ [] "c" 5).1 = true :=
  ⟨(fail_open_fallback ⟨2, 60⟩ ⟨false, false, []⟩ [] "c" 5).1 rfl,
   (fail_open_fallback ⟨2, 60⟩ ⟨false, false, []⟩ [] "c" 5).2.1 rfl,
   (fail_open_fallback ⟨2, 60⟩ ⟨true, true, []⟩ [] "c" 5).2.2 rfl rfl⟩

/-- C9: `SimpleLimiter.limit(rate)` hands the endpoint function back
unchanged, only attaching the declared rate; the middleware pipeline
behaves identically on the decorated and the undecorated function, so the
per-endpoint annotations impose no admission behavior beyond the global
middleware. -/
theorem limiter_limit_is_identity {β : Type} (rate : String)
    (handler : Request → β) (cfg : RateLimitConfig) (st : MWState)
    (req : Request) (now : Int) :
    (SimpleLimiter.limit rate handler).fn = handler
    ∧ (SimpleLimiter.limit rate handler).declaredRate = some rate
    ∧ dispatch cfg st (SimpleLimiter.limit rate handler).fn req now
        = dispatch cfg st handler req now :=
  ⟨rfl, rfl, rfl⟩


/-- A Python dict key as the cache's value domain uses it: an `int` or a
`str`. -/
inductive PyKey where
  | int (n : Int)
  | str (s : String)
  deriving DecidableEq

/-- The JSON-able Python values the cache stores: `None`, `bool`, `int`,
`str`, `list` and `dict`.  This is the closed value domain of
`json.dumps`/`json.loads` as `CacheService` uses them. -/
inductive PyVal where
  | none
  | bool (b : Bool)
  | int (n : Int)
  | str (s : String)
  | list (xs : List PyVal)
  | dict (es : List (PyKey × PyVal))

/-- A JSON document (the parse of the text `json.dumps` produced): object
keys are always strings. -/
inductive JVal where
  | null
  | bool (b : Bool)
  | int (n : Int)
  | str (s : String)
  | arr (xs : List JVal)
  | obj (es : List (String × JVal))

/-- How `json.dumps` renders a dict key: ints become their decimal form. -/
def keyToString : PyKey → String
  | .int n => toString n
  | .str s => s

mutual

/-- `json.dumps` on the modelled value domain, as the JSON document it
produces (total here: every `PyVal` is JSON-able, and `default=str` would
only fire outside this domain). -/
def pyToJson : PyVal → JVal
  | .none => .null
  | .bool b => .bool b
  | .int n => .int n
  | .str s => .str s
  | .list xs => .arr (pyToJsonL xs)
  | .dict es => .obj (pyToJsonD es)

def pyToJsonL : List PyVal → List JVal
  | [] => []
  | x :: xs => pyToJson x :: pyToJsonL xs

def pyToJsonD : List (PyKey × PyVal) → List (String × JVal)
  | [] => []
  | (k, v) :: es => (keyToString k, pyToJson v) :: pyToJsonD es

end

mutual

/-- `json.loads` of a stored document back into a Python value: object
keys come back as strings. -/
def jsonToPy : JVal → PyVal
  | .null => .none
  | .bool b => .bool b
  | .int n => .int n
  | .str s => .str s
  | .arr xs => .list (jsonToPyL xs)
  | .obj es => .dict (jsonToPyD es)

def jsonToPyL : List JVal → List PyVal
  | [] => []
  | x :: xs => jsonToPy x :: jsonToPyL xs

def jsonToPyD : List (String × JVal) → List (PyKey × PyVal)
  | [] => []
  | (k, v) :: es => (PyKey.str k, jsonToPy v) :: jsonToPyD es

end

/-- `json.loads(json.dumps(v))`: what a cached value reads back as. -/
def jsonRoundTrip (v : PyVal) : PyVal := jsonToPy (pyToJson v)

/-- `v is None`. -/
def PyVal.isNone : PyVal → Bool
  | .none => true
  | _ => false

/-- Python truthiness of a decoded value (`if cached:`). -/
def PyVal.truthy : PyVal → Bool
  | .none => false
  | .bool b => b
  | .int n => decide (n ≠ 0)
  | .str s => !s.isEmpty
  | .list xs => !xs.isEmpty
  | .dict es => !es.isEmpty

/-- `settings.CACHE_TTL` and `settings.DOMAIN_CACHE_TTL`. -/
structure CacheConfig where
  defaultTtl : Nat
  domainTtl : Nat
  deriving DecidableEq

/-- The Redis string keyspace as `CacheService` sees it.  `up = false`
models a backend on which every command raises — unreachable, timed out,
or failing mid-command — which the service's `try/except` absorbs; the
same flag stands in for de/serialization failure, the only other
exception source in those bodies.  Each entry pairs a key with its stored
JSON document and TTL (TTL expiry is passive at the backend and no
verified claim lets time elapse). -/
structure CacheBackend where
  up : Bool
  entries : List (String × JVal × Nat)

def lookupEntry : List (String × JVal × Nat) → String → Option (JVal × Nat)
  | [], _ => Option.none
  | (k, v) :: rest, key => if k = key then some v else lookupEntry rest key

def setEntry : List (String × JVal × Nat) → String → JVal → Nat →
    List (String × JVal × Nat)
  | [], key, v, ttl => [(key, v, ttl)]
  | (k, w) :: rest, key, v, ttl =>
      if k = key then (key, v, ttl) :: rest else (k, w) :: setEntry rest key v ttl

def removeEntry : List (String × JVal × Nat) → String →
    List (String × JVal × Nat)
  | [], _ => []
  | (k, w) :: rest, key =>
      if k = key then rest else (k, w) :: removeEntry rest key

namespace CacheService

/-- `CacheService.get`: `json.loads` of the stored text; an absent key, a
raised command and a stored `null` all come back as `None` (the code's
truthiness guard admits every actual `json.dumps` output, which is never
the empty string). -/
def get (b : CacheBackend) (key : String) : PyVal :=
  if b.up then
    match lookupEntry b.entries key with
    | some (v, _) => jsonToPy v
    | Option.none => PyVal.none
  else PyVal.none

/-- `ttl = ttl or self.default_ttl` — Python `or`, so an explicit 0 also
falls back to the default. -/
def ttlOrDefault (cfg : CacheConfig) : Option Nat → Nat
  | some n => if n = 0 then cfg.defaultTtl else n
  | Option.none => cfg.defaultTtl

/-- `CacheService.set`: `SETEX key ttl dumps(value)`; a raised command is
reported as `False` (not cached). -/
def set (cfg : CacheConfig) (b : CacheBackend) (key : String) (v : PyVal)
    (ttl : Option Nat) : Bool × CacheBackend :=
  if b.up then
    (true, { b with entries := setEntry b.entries key (pyToJson v) (ttlOrDefault cfg ttl) })
  else (false, b)

/-- `CacheService.delete`: `bool(DEL key)`; a raised command is `False`. -/
def delete (b : CacheBackend) (key : String) : Bool × CacheBackend :=
  if b.up then
    match lookupEntry b.entries key with
    | some _ => (true, { b with entries := removeEntry b.entries key })
    | Option.none => (false, b)
  else (false, b)

/-- `CacheService.exists`: `bool(EXISTS key)`; a raised command is `False`. -/
def existsKey (b : CacheBackend) (key : String) : Bool :=
  if b.up then (lookupEntry b.entries key).isSome else false

/-- `CacheService.get_or_set`: return the cached value when it `is not
None`, else run the producer, cache its result and return it.  The third
component counts how often the producer ran (0 or 1). -/
def getOrSet (cfg : CacheConfig) (b : CacheBackend) (key : String)
    (producer : Unit → PyVal) (ttl : Option Nat) : PyVal × CacheBackend × Nat :=
  let value := get b key
  if value.isNone then
    let result := producer ()
    let r := set cfg b key result ttl
    (result, r.2, 1)
  else (value, b, 0)

/-- Two sequential `get_or_set` calls for one key: both returned values,
the total number of producer invocations, and the final backend state. -/
def getOrSetTwice (cfg : CacheConfig) (b : CacheBackend) (key : String)
    (producer : Unit → PyVal) (ttl : Option Nat) :
    PyVal × PyVal × Nat × CacheBackend :=
  let r1 := getOrSet cfg b key producer ttl
  let r2 := getOrSet cfg r1.2.1 key producer ttl
  (r1.1, r2.1, r1.2.2 + r2.2.2, r2.2.1)

end CacheService

/-- Redis `KEYS` glob matching over the characters of pattern and key
(`*` any run, `?` any single character, others literal). -/
def globMatch : List Char → List Char → Bool
  | [], [] => true
  | [], _ :: _ => false
  | '*' :: ps, [] => globMatch ps []
  | '*' :: ps, c :: cs => globMatch ps (c :: cs) || globMatch ('*' :: ps) cs
  | '?' :: _, [] => false
  | '?' :: ps, _ :: cs => globMatch ps cs
  | p :: ps, c :: cs => (p == c) && globMatch ps cs
  | _ :: _, [] => false
termination_by p s => p.length + s.length

def keysMatch (pattern key : String) : Bool := globMatch pattern.data key.data

/-- `DEL key…` over a key list: the number of existing keys removed, and
the keyspace without them. -/
def CacheBackend.delMany (b : CacheBackend) (ks : List String) :
    Int × CacheBackend :=
  (((b.entries.filter (fun e => decide (e.1 ∈ ks))).length : Int),
   { b with entries := b.entries.filter (fun e => !decide (e.1 ∈ ks)) })

/-- `CacheService.clear_pattern`: `KEYS pattern`, then one bulk `DEL` when
anything matched; a raised command is logged and reported as 0. -/
def CacheService.clearPattern (b : CacheBackend) (pattern : String) :
    Int × CacheBackend :=
  if b.up then
    let ks := (b.entries.filter (fun e => keysMatch pattern e.1)).map (fun e => e.1)
    if ks.isEmpty then (0, b) else b.delMany ks
  else (0, b)

/-- The `modalidades` table of `get_modalidades_contratacao` (Lei
14.133/2021), in source order. -/
def modalidadesContratacao : List (Int × String) :=
  [(1, "Concorrência"), (2, "Tomada de Preços"), (3, "Convite"),
   (4, "Concurso"), (5, "Leilão"), (6, "Pregão Eletrônico"),
   (7, "Pregão Presencial"), (8, "Dispensa de Licitação"),
   (9, "Inexigibilidade de Licitação"), (10, "Diálogo Competitivo"),
   (11, "Procedimento de Manifestação de Interesse"), (12, "Credenciamento"),
   (13, "Pré-qualificação"), (14, "Concurso de Projeto"),
   (15, "Licitação para Contratação Integrada"),
   (16, "Licitação para Concessão"), (17, "Compras Governamentais")]

/-- The int-keyed dict literal built on a cache miss. -/
def modalidadesDict : PyVal :=
  .dict (modalidadesContratacao.map (fun e => (.int e.1, .str e.2)))

/-- The same table as it reads back from the cache: keys stringified by
the JSON round-trip. -/
def modalidadesDictCached : PyVal :=
  .dict (modalidadesContratacao.map (fun e => (.str (toString e.1), .str e.2)))

/-- `DomainCacheService.get_modalidades_contratacao`: return the cached
table when truthy, else build the dict literal, cache it with the domain
TTL and return it. -/
def getModalidadesContratacao (cfg : CacheConfig) (b : CacheBackend) :
    PyVal × CacheBackend :=
  let key := "domain:modalidades_contratacao"
  let cached := CacheService.get b key
  if cached.truthy then (cached, b)
  else
    let r := CacheService.set cfg b key modalidadesDict (some cfg.domainTtl)
    (modalidadesDict, r.2)


theorem lookupEntry_setEntry_self (es : List (String × JVal × Nat))
    (key : String) (v : JVal) (ttl : Nat) :
    lookupEntry (setEntry es key v ttl) key = some (v, ttl) := by
  induction es with
  | nil => simp [setEntry, lookupEntry]
  | cons e rest ih =>
      obtain ⟨k, w⟩ := e
      by_cases h : k = key <;> simp [setEntry, lookupEntry, h, ih]

theorem isNone_jsonRoundTrip (v : PyVal) :
    (jsonRoundTrip v).isNone = v.isNone := by
  cases v <;> rfl

theorem globMatch_star (cs : List Char) : globMatch ['*'] cs = true := by
  induction cs with
  | nil => simp [globMatch]
  | cons c cs ih => simp [globMatch, ih]

theorem globMatch_foo (cs : List Char) :
    globMatch "foo_*".data cs = "foo_".data.isPrefixOf cs := by
  show globMatch ['f', 'o', 'o', '_', '*'] cs = ['f', 'o', 'o', '_'].isPrefixOf cs
  match cs with
  | [] => simp [globMatch, List.isPrefixOf]
  | [c1] => simp [globMatch, List.isPrefixOf]
  | [c1, c2] => simp [globMatch, List.isPrefixOf]
  | [c1, c2, c3] => simp [globMatch, List.isPrefixOf]
  | c1 :: c2 :: c3 :: c4 :: rest =>
      simp [globMatch, List.isPrefixOf, globMatch_star, Bool.and_assoc]

/-- C5 counterexample: with an empty, reachable cache, two sequential
`get_or_set` calls for a producer returning the int-keyed dict `{1: "a"}`
return different values — the second call reads back the JSON round-trip
`{"1": "a"}` — falsifying "both calls return the same value". -/
theorem get_or_set_twice_value_changes :
    (CacheService.getOrSetTwice ⟨3600, 86400⟩ ⟨true, []⟩ "k"
        (fun _ => PyVal.dict [(.int 1, .str "a")]) (some 60)).2.1
      ≠ (CacheService.getOrSetTwice ⟨3600, 86400⟩ ⟨true, []⟩ "k"
        (fun _ => PyVal.dict [(.int 1, .str "a")]) (some 60)).1 := by
  show PyVal.dict [(.str "1", .str "a")] ≠ PyVal.dict [(.int 1, .str "a")]
  simp

/-- C5 amended: over a reachable backend, two sequential `get_or_set`
calls for one key invoke the producer at most once provided the produced
value is not `None` (a produced `None` is indistinguishable from a miss
and reruns the producer), and both calls return the same value provided
the produced value is a fixed point of the JSON round-trip (an
integer-keyed mapping is not: its keys come back stringified). -/
theorem get_or_set_twice_amended (cfg : CacheConfig) (b : CacheBackend)
    (key : String) (producer : Unit → PyVal) (ttl : Option Nat)
    (hup : b.up = true) :
    ((producer ()).isNone = false →
        (CacheService.getOrSetTwice cfg b key producer ttl).2.2.1 ≤ 1)
    ∧ (jsonRoundTrip (producer ()) = producer () →
        (CacheService.getOrSetTwice cfg b key producer ttl).2.1
          = (CacheService.getOrSetTwice cfg b key producer ttl).1) := by
  cases hmiss : (CacheService.get b key).isNone with
  | false =>
      constructor
      · intro _
        simp [CacheService.getOrSetTwice, CacheService.getOrSet, hmiss]
      · intro _
        simp [CacheService.getOrSetTwice, CacheService.getOrSet, hmiss]
  | true =>
      have hget1 : CacheService.get
          (CacheService.set cfg b key (producer ()) ttl).2 key
          = jsonRoundTrip (producer ()) := by
        simp [CacheService.get, CacheService.set, hup,
          lookupEntry_setEntry_self, jsonRoundTrip]
      constructor
      · intro hpn
        have h2 : (jsonRoundTrip (producer ())).isNone = false := by
          rw [isNone_jsonRoundTrip, hpn]
        simp [CacheService.getOrSetTwice, CacheService.getOrSet, hmiss, hget1, h2]
      · intro hrt
        cases hpn : (producer ()).isNone with
        | false =>
            have h2 : (jsonRoundTrip (producer ())).isNone = false := by
              rw [isNone_jsonRoundTrip, hpn]
            simp [CacheService.getOrSetTwice, CacheService.getOrSet, hmiss,
              hget1, h2, hrt, hpn]
        | true =>
            have h2 : (jsonRoundTrip (producer ())).isNone = true := by
              rw [isNone_jsonRoundTrip, hpn]
            simp [CacheService.getOrSetTwice, CacheService.getOrSet, hmiss,
              hget1, h2]

/-- Witness for the amended C5: a string-valued producer runs once and
both calls agree. -/
theorem get_or_set_twice_amended_witness :
    (CacheService.getOrSetTwice ⟨3600, 86400⟩ ⟨true, []⟩ "k"
        (fun _ => PyVal.str "x") (some 60)).2.2.1 ≤ 1
    ∧ (CacheService.getOrSetTwice ⟨3600, 86400⟩ ⟨true, []⟩ "k"
        (fun _ => PyVal.str "x") (some 60)).2.1
      = (CacheService.getOrSetTwice ⟨3600, 86400⟩ ⟨true, []⟩ "k"
        (fun _ => PyVal.str "x") (some 60)).1 :=
  ⟨(get_or_set_twice_amended ⟨3600, 86400⟩ ⟨true, []⟩ "k"
      (fun _ => PyVal.str "x") (some 60) rfl).1 rfl,
   (get_or_set_twice_amended ⟨3600, 86400⟩ ⟨true, []⟩ "k"
      (fun _ => PyVal.str "x") (some 60) rfl).2 rfl⟩

/-- C6: with the backend down every `CacheService` operation absorbs the
failure — `get` reports a miss, `set` reports not-cached, `delete` and
`exists` report `False` — and, being total functions of the model, none
raises; the keyspace is untouched. -/
theorem cache_ops_fail_soft (cfg : CacheConfig) (b : CacheBackend)
    (key : String) (v : PyVal) (ttl : Option Nat) (hdown : b.up = false) :
    CacheService.get b key = PyVal.none
    ∧ CacheService.set cfg b key v ttl = (false, b)
    ∧ CacheService.delete b key = (false, b)
    ∧ CacheService.existsKey b key = false := by
  simp [CacheService.get, CacheService.set, CacheService.delete,
    CacheService.existsKey, hdown]

/-- Witness for C6 on a concrete down backend. -/
theorem cache_ops_fail_soft_witness :
    CacheService.get ⟨false, []⟩ "k" = PyVal.none
    ∧ CacheService.set ⟨3600, 86400⟩ ⟨false, []⟩ "k" (PyVal.str "v") (some 5)
        = (false, ⟨false, []⟩)
    ∧ CacheService.delete ⟨false, []⟩ "k" = (false, ⟨false, []⟩)
    ∧ CacheService.existsKey ⟨false, []⟩ "k" = false :=
  cache_ops_fail_soft ⟨3600, 86400⟩ ⟨false, []⟩ "k" (PyVal.str "v") (some 5) rfl

/-- C7: `clear_pattern("foo_*")` over a reachable backend deletes exactly
the keys with prefix `foo_`, leaves every other key untouched, and returns
how many it deleted (the `Nodup` hypothesis says the keyspace holds each
key once, as a real keyspace does, so entries deleted = keys deleted);
with the backend unreachable the failure is swallowed, the call returns 0
and the keyspace — whose entries then simply age out by TTL — is
untouched. -/
theorem clear_pattern_foo (b : CacheBackend)
    (hnd : (b.entries.map (fun e => e.1)).Nodup) :
    (b.up = true →
        (CacheService.clearPattern b "foo_*").1
            = ((b.entries.filter
                (fun e => "foo_".data.isPrefixOf e.1.data)).length : Int)
        ∧ (CacheService.clearPattern b "foo_*").2.up = true
        ∧ (CacheService.clearPattern b "foo_*").2.entries
            = b.entries.filter (fun e => !"foo_".data.isPrefixOf e.1.data))
    ∧ (b.up = false → CacheService.clearPattern b "foo_*" = (0, b)) := by
  have hpred : ∀ k : String,
      keysMatch "foo_*" k = "foo_".data.isPrefixOf k.data :=
    fun k => globMatch_foo k.data
  constructor
  · intro hup
    have hfeq : b.entries.filter (fun e => keysMatch "foo_*" e.1)
        = b.entries.filter (fun e => "foo_".data.isPrefixOf e.1.data) :=
      List.filter_congr (fun e _ => hpred e.1)
    by_cases hks : b.entries.filter (fun e => "foo_".data.isPrefixOf e.1.data) = []
    · have hall : ∀ e ∈ b.entries, ¬("foo_".data.isPrefixOf e.1.data = true) :=
        fun e he => by
          intro hpe
          have : e ∈ b.entries.filter (fun e => "foo_".data.isPrefixOf e.1.data) :=
            List.mem_filter.mpr ⟨he, hpe⟩
          rw [hks] at this
          exact absurd this (List.not_mem_nil e)
      have hthen : CacheService.clearPattern b "foo_*" = (0, b) := by
        simp [CacheService.clearPattern, hup, hfeq, hks]
      refine ⟨?_, ?_, ?_⟩
      · rw [hthen, hks]
        rfl
      · rw [hthen]
        exact hup
      · rw [hthen]
        exact (List.filter_eq_self.mpr (fun e he => by
          rw [Bool.not_eq_true', Bool.eq_false_iff]
          exact hall e he)).symm
    · have hne : ((b.entries.filter
          (fun e => "foo_".data.isPrefixOf e.1.data)).map (fun e => e.1)) ≠ [] := by
        intro hmap
        exact hks (List.map_eq_nil_iff.mp hmap)
      have hthen : CacheService.clearPattern b "foo_*"
          = b.delMany ((b.entries.filter
              (fun e => "foo_".data.isPrefixOf e.1.data)).map (fun e => e.1)) := by
        simp [CacheService.clearPattern, hup, hfeq, List.isEmpty_iff, hne]
      have hmemiff : ∀ e ∈ b.entries,
          decide (e.1 ∈ (b.entries.filter
              (fun e => "foo_".data.isPrefixOf e.1.data)).map (fun e => e.1))
            = "foo_".data.isPrefixOf e.1.data := by
        intro e _
        cases hpe : "foo_".data.isPrefixOf e.1.data with
        | true =>
            refine decide_eq_true ?_
            refine List.mem_map.mpr ⟨e, ?_, rfl⟩
            exact List.mem_filter.mpr ⟨‹e ∈ b.entries›, hpe⟩
        | false =>
            refine decide_eq_false ?_
            intro hin
            obtain ⟨x, hx, hx1⟩ := List.mem_map.mp hin
            have hxp := (List.mem_filter.mp hx).2
            rw [hx1] at hxp
            rw [hxp] at hpe
            exact Bool.true_eq_false.mp hpe
      have hfilter1 : b.entries.filter (fun e => decide (e.1 ∈ (b.entries.filter
            (fun e => "foo_".data.isPrefixOf e.1.data)).map (fun e => e.1)))
          = b.entries.filter (fun e => "foo_".data.isPrefixOf e.1.data) :=
        List.filter_congr hmemiff
      have hfilter2 : b.entries.filter (fun e => !decide (e.1 ∈ (b.entries.filter
            (fun e => "foo_".data.isPrefixOf e.1.data)).map (fun e => e.1)))
          = b.entries.filter (fun e => !"foo_".data.isPrefixOf e.1.data) :=
        List.filter_congr (fun e he => by rw [hmemiff e he])
      refine ⟨?_, ?_, ?_⟩
      · rw [hthen]
        show ((b.entries.filter _).length : Int) = _
        rw [hfilter1]
      · rw [hthen]
        exact hup
      · rw [hthen]
        show b.entries.filter _ = _
        rw [hfilter2]
  · intro hdn
    simp [CacheService.clearPattern, hdn]

/-- Witness for C7: of three entries, the two `foo_`-prefixed ones are
deleted (count 2) and the `bar_` one survives. -/
theorem clear_pattern_foo_witness :
    (CacheService.clearPattern
        ⟨true, [("foo_a", JVal.str "1", 5), ("bar_b", JVal.str "2", 5),
                ("foo_c", JVal.str "3", 5)]⟩ "foo_*").1 = 2
    ∧ (CacheService.clearPattern
        ⟨true, [("foo_a", JVal.str "1", 5), ("bar_b", JVal.str "2", 5),
                ("foo_c", JVal.str "3", 5)]⟩ "foo_*").2.entries
      = [("bar_b", JVal.str "2", 5)] := by
  have h := (clear_pattern_foo
      ⟨true, [("foo_a", JVal.str "1", 5), ("bar_b", JVal.str "2", 5),
              ("foo_c", JVal.str "3", 5)]⟩ (by decide)).1 rfl
  refine ⟨?_, ?_⟩
  · rw [h.1]
    rfl
  · rw [h.2.2]
    rfl

theorem roundTrip_int_dict (es : List (Int × PyVal))
    (hfix : ∀ e ∈ es, jsonRoundTrip e.2 = e.2) :
    jsonRoundTrip (.dict (es.map (fun e => (.int e.1, e.2))))
      = .dict (es.map (fun e => (.str (toString e.1), e.2))) := by
  induction es with
  | nil => rfl
  | cons e rest ih =>
      obtain ⟨n, v⟩ := e
      have hv : jsonRoundTrip v = v := hfix (n, v) (List.mem_cons_self _ _)
      have hr := ih (fun x hx => hfix x (List.mem_cons_of_mem _ hx))
      simp only [jsonRoundTrip, pyToJson, jsonToPy] at hr
      injection hr with hr'
      simp only [jsonRoundTrip] at hv
      simp only [List.map_cons, jsonRoundTrip, pyToJson, pyToJsonD, jsonToPy,
        jsonToPyD, keyToString]
      rw [hv, hr']

/-- C8: caching is not the identity on integer-keyed mappings — `set` then
`get` returns the mapping with every key in its decimal string form (values
that round-trip unchanged stay unchanged); consequently
`get_modalidades_contratacao` hands out the int-keyed table on a miss but
its string-keyed round-trip on the following hit, and the two differ. -/
theorem int_keyed_mapping_stringified (cfg : CacheConfig) (b : CacheBackend)
    (key : String) (ttl : Option Nat) (es : List (Int × PyVal))
    (hup : b.up = true) (hfix : ∀ e ∈ es, jsonRoundTrip e.2 = e.2) :
    (CacheService.get
        (CacheService.set cfg b key
          (.dict (es.map (fun e => (.int e.1, e.2)))) ttl).2 key
      = .dict (es.map (fun e => (.str (toString e.1), e.2))))
    ∧ (CacheService.get b "domain:modalidades_contratacao" = PyVal.none →
        (getModalidadesContratacao cfg b).1 = modalidadesDict
        ∧ (getModalidadesContratacao cfg
            (getModalidadesContratacao cfg b).2).1 = modalidadesDictCached
        ∧ modalidadesDictCached ≠ modalidadesDict) := by
  have hgetset : ∀ (k : String) (t : Option Nat) (v : PyVal),
      CacheService.get (CacheService.set cfg b k v t).2 k = jsonRoundTrip v := by
    intro k t v
    simp [CacheService.get, CacheService.set, hup, lookupEntry_setEntry_self,
      jsonRoundTrip]
  refine ⟨?_, ?_⟩
  · rw [hgetset key ttl _, roundTrip_int_dict es hfix]
  · intro hmiss
    have htr : (CacheService.get b "domain:modalidades_contratacao").truthy
        = false := by
      rw [hmiss]
      rfl
    have h1 : (getModalidadesContratacao cfg b).1 = modalidadesDict := by
      simp [getModalidadesContratacao, htr]
    have hb2 : (getModalidadesContratacao cfg b).2
        = (CacheService.set cfg b "domain:modalidades_contratacao"
            modalidadesDict (some cfg.domainTtl)).2 := by
      simp [getModalidadesContratacao, htr]
    have hcache : CacheService.get
        (CacheService.set cfg b "domain:modalidades_contratacao"
          modalidadesDict (some cfg.domainTtl)).2
        "domain:modalidades_contratacao" = modalidadesDictCached := by
      rw [hgetset]
      rfl
    have h2 : (getModalidadesContratacao cfg
        (getModalidadesContratacao cfg b).2).1 = modalidadesDictCached := by
      rw [hb2]
      simp [getModalidadesContratacao, hcache]
      rfl
    have h3 : modalidadesDictCached ≠ modalidadesDict := by
      simp [modalidadesDictCached, modalidadesDict, modalidadesContratacao]
    exact ⟨h1, h2, h3⟩

/-- Witness for C8: a one-entry int-keyed dict reads back string-keyed,
and the modalidades getter returns the int-keyed table on the first call
and the string-keyed one on the second. -/
theorem int_keyed_mapping_stringified_witness :
    CacheService.get (CacheService.set ⟨3600, 86400⟩ ⟨true, []⟩ "k"
        (PyVal.dict [(.int 1, .str "a")]) Option.none).2 "k"
      = PyVal.dict [(.str "1", .str "a")]
    ∧ (getModalidadesContratacao ⟨3600, 86400⟩ ⟨true, []⟩).1 = modalidadesDict
    ∧ (getModalidadesContratacao ⟨3600, 86400⟩
        (getModalidadesContratacao ⟨3600, 86400⟩ ⟨true, []⟩).2).1
      = modalidadesDictCached := by
  have hfix : ∀ e ∈ [((1 : Int), PyVal.str "a")], jsonRoundTrip e.2 = e.2 := by
    intro e he
    rw [List.mem_singleton] at he
    subst he
    rfl
  have h := int_keyed_mapping_stringified ⟨3600, 86400⟩ ⟨true, []⟩ "k"
      Option.none [((1 : Int), PyVal.str "a")] rfl hfix
  have hm := h.2 rfl
  exact ⟨h.1, hm.1, hm.2.1⟩

end Searcb
